import Mathlib

/-!
Shallow embedding of the audio-flashcard repository core logic.

JavaScript strings are modelled as lists of Unicode code points
(`List Nat`).  The pronunciation comparator is translated from the
`comparePronunciation` function of the Card component; the deck
import/export logic and the image-generation orchestration are
translated from `App.tsx`.
-/

namespace AudioFlashcards

/-- A JavaScript string, as its sequence of Unicode code points. -/
abbrev JSStr := List Nat

/-- Embed a Lean string literal as a `JSStr`. -/
def strOf (s : String) : JSStr := s.data.map Char.toNat

/-- JavaScript `toLowerCase`, on the ASCII range: code points 65-90
(`A`-`Z`) shift by 32; everything else relevant to this program is fixed. -/
def jsToLower (c : Nat) : Nat := if 65 ≤ c ∧ c ≤ 90 then c + 32 else c

/-- The regex class `\w`: ASCII letters, digits and underscore. -/
def isWordChar (c : Nat) : Bool :=
  (48 ≤ c && c ≤ 57) || (65 ≤ c && c ≤ 90) || (97 ≤ c && c ≤ 122) || c == 95

/-- The regex class `\s`: ASCII whitespace plus the Unicode space
separators and BOM that JavaScript includes. -/
def isWsChar (c : Nat) : Bool :=
  c == 32 || (9 ≤ c && c ≤ 13) || c == 160 || c == 5760 ||
  (8192 ≤ c && c ≤ 8202) || c == 8232 || c == 8233 || c == 8239 ||
  c == 8287 || c == 12288 || c == 65279

/-- Code point of the apostrophe character. -/
def aposChar : Nat := 39

/-- Whether the regex `[^\w\s']|'` of `comparePronunciation` matches a
character, i.e. whether `replace` deletes it. -/
def stripMatch (c : Nat) : Bool :=
  !(isWordChar c || isWsChar c || c == aposChar) || c == aposChar

/-- The normalisation step of `comparePronunciation`:
`x.toLowerCase().replace(/[^\w\s']|'/g, "")`. -/
def jsNormalize (s : JSStr) : JSStr :=
  (s.map jsToLower).filter (fun c => !stripMatch c)

/-- JavaScript `s.split(/\s+/).filter(Boolean)`: split at whitespace
characters and discard the empty tokens.  Splitting at every single
whitespace character and then dropping empty tokens yields the same list
as splitting at maximal whitespace runs and dropping empty tokens, namely
the maximal runs of non-whitespace characters of `s`, in order. -/
def splitWs (s : JSStr) : List JSStr :=
  (s.splitOnP isWsChar).filter (fun w => !w.isEmpty)

/-- One entry of the comparator output: the original display word and
whether it was recognised in the spoken transcript. -/
structure ComparisonResult where
  word : JSStr
  isCorrect : Bool
deriving DecidableEq, Repr

/-- The pronunciation comparator of the Card component, translated from
`comparePronunciation` in the source: split the original text on
whitespace keeping the display words verbatim, normalise them, normalise
the whole transcript and split it into a token set, and mark each display
word by membership of its normalised form in that set. -/
def comparePronunciation (originalText spokenText : JSStr) : List ComparisonResult :=
  let originalDisplayWords := splitWs originalText
  let originalComparisonWords := originalDisplayWords.map jsNormalize
  let spokenComparisonWords := splitWs (jsNormalize spokenText)
  List.zipWith (fun word normWord =>
      { word := word, isCorrect := decide (normWord ∈ spokenComparisonWords) })
    originalDisplayWords originalComparisonWords

/-! The flashcard data model and the deck import/export of `App.tsx`. -/

/-- The flashcard record of `types.ts`. -/
structure FlashcardItem where
  id : JSStr
  text : JSStr
  audioUrl : JSStr
  imageUrl : Option JSStr
  isLoading : Bool
deriving DecidableEq, Repr

/-- A JSON value, as produced by `JSON.parse` and consumed by
`JSON.stringify`.  Numeric values are modelled as integers; their exact
value plays no role in any claim. -/
inductive JSValue where
  | null
  | bool (b : Bool)
  | num (n : Int)
  | str (s : JSStr)
  | arr (elems : List JSValue)
  | obj (fields : List (JSStr × JSValue))

/-- Whether an object field list carries a field with the given key. -/
def hasField (fields : List (JSStr × JSValue)) (key : JSStr) : Bool :=
  fields.any (fun kv => kv.1 == key)

/-- Evaluation of `typeof item.key === "undefined"` for one element of the
imported array: property access on `null` throws a TypeError, objects
answer by key presence (`JSON.parse` never produces `undefined` values),
and every other value has no such own property. -/
def undefinedCheck (item : JSValue) (key : JSStr) : Except Unit Bool :=
  match item with
  | .null => .error ()
  | .obj fields => .ok (!hasField fields key)
  | _ => .ok true

/-- The per-element validation test of `handleImport` and
`handleImportFromUrl`: `typeof item.id === "undefined" ||
typeof item.text === "undefined"`, with JavaScript short-circuiting. -/
def itemMissingRequired (item : JSValue) : Except Unit Bool :=
  match undefinedCheck item (strOf "id") with
  | .error e => .error e
  | .ok true => .ok true
  | .ok false => undefinedCheck item (strOf "text")

/-- `importedData.some(...)` over the parsed array, short-circuiting and
propagating a thrown TypeError. -/
def anyMissingRequired : List JSValue → Except Unit Bool
  | [] => .ok false
  | item :: rest =>
    match itemMissingRequired item with
    | .error e => .error e
    | .ok true => .ok true
    | .ok false => anyMissingRequired rest

/-- Outcome of an import attempt: the flashcard collection afterwards and
whether an error message was surfaced. -/
structure ImportOutcome where
  collection : List JSValue
  errored : Bool

/-- The import routine shared by `handleImport` and `handleImportFromUrl`.
The document argument is the result of `JSON.parse` on the file or
response body, with `Except.error` standing for a parse or read failure.
A failed parse, a non-array document, and an array on which the
required-field scan throws or finds an offender all preserve the prior
collection and surface an error; otherwise the parsed array replaces the
collection wholesale, with its elements trusted as-is. -/
def importDeck (prior : List JSValue) (doc : Except Unit JSValue) : ImportOutcome :=
  match doc with
  | .error _ => { collection := prior, errored := true }
  | .ok v =>
    match v with
    | .arr items =>
      match anyMissingRequired items with
      | .error _ => { collection := prior, errored := true }
      | .ok true => { collection := prior, errored := true }
      | .ok false => { collection := items, errored := false }
    | _ => { collection := prior, errored := true }

/-- The declarative form of the validation: an element passes the scan
without throwing exactly when it is an object carrying both required
keys (of any value type). -/
def itemHasRequired (item : JSValue) : Bool :=
  match item with
  | .obj fields => hasField fields (strOf "id") && hasField fields (strOf "text")
  | _ => false

/-- The `JSON.stringify` image of one flashcard, with the field order of
the object literal that builds the deck. -/
def flashcardToJS (card : FlashcardItem) : JSValue :=
  .obj [(strOf "id", .str card.id),
        (strOf "text", .str card.text),
        (strOf "audioUrl", .str card.audioUrl),
        (strOf "imageUrl", match card.imageUrl with | some u => .str u | none => .null),
        (strOf "isLoading", .bool card.isLoading)]

/-- First object field with the given key, if any. -/
def getField (fields : List (JSStr × JSValue)) (key : JSStr) : Option JSValue :=
  match fields with
  | [] => none
  | kv :: rest => if kv.1 == key then some kv.2 else getField rest key

/-- Read one flashcard back from its JSON image, to state that an
imported deck is content-equal to the exported one. -/
def flashcardOfJS (v : JSValue) : Option FlashcardItem :=
  match v with
  | .obj fields =>
    match getField fields (strOf "id"), getField fields (strOf "text"),
          getField fields (strOf "audioUrl"), getField fields (strOf "imageUrl"),
          getField fields (strOf "isLoading") with
    | some (.str i), some (.str t), some (.str a), some img, some (.bool l) =>
      match img with
      | .str u => some { id := i, text := t, audioUrl := a, imageUrl := some u, isLoading := l }
      | .null => some { id := i, text := t, audioUrl := a, imageUrl := none, isLoading := l }
      | _ => none
    | _, _, _, _, _ => none
  | _ => none

/-- `handleExport`: an empty collection only surfaces an error and
produces no document; otherwise the serialised document is the JSON
array of the cards. -/
def exportDeck (cards : List FlashcardItem) : Option JSValue :=
  if cards.isEmpty then none
  else some (.arr (cards.map flashcardToJS))

/-! The store mutations and the image-generation orchestration of
`App.tsx`. -/

/-- The `setFlashcards` functional update that marks the card with the
given id as loading. -/
def setCardLoading (cards : List FlashcardItem) (id : JSStr) : List FlashcardItem :=
  cards.map (fun card => if card.id == id then { card with isLoading := true } else card)

/-- The `setFlashcards` functional update that stores the generated image
reference and clears the loading flag. -/
def setCardImage (cards : List FlashcardItem) (id url : JSStr) : List FlashcardItem :=
  cards.map (fun card =>
    if card.id == id then { card with imageUrl := some url, isLoading := false } else card)

/-- The `setFlashcards` functional update of the failure path, clearing
only the loading flag. -/
def clearCardLoading (cards : List FlashcardItem) (id : JSStr) : List FlashcardItem :=
  cards.map (fun card => if card.id == id then { card with isLoading := false } else card)

/-- Behaviour of the external image-generation collaborator: a prompt
produces an image reference or a failure message. -/
abbrev GenOracle := JSStr → Except JSStr JSStr

/-- Trace events of the orchestrator: a collaborator call is issued /
resolves. -/
inductive GenEvent where
  | callStart (prompt : JSStr)
  | callEnd (prompt : JSStr)
deriving DecidableEq, Repr

/-- The fixed template of `handleGenerateImage` wrapped around the card
text.  The apostrophe code point is spliced explicitly. -/
def fullPrompt (prompt : JSStr) : JSStr :=
  strOf "A simple, cute, cartoon-style illustration for a children" ++ [aposChar] ++
  strOf "s flashcard, with a clean, solid light-colored background. " ++
  strOf "The image should clearly and simply depict: " ++ prompt

/-- `handleGenerateImage`: mark the card loading, await the collaborator,
then either store the image reference or roll the loading flag back.  The
returned trace records the interval of the collaborator call. -/
def handleGenerateImage (oracle : GenOracle) (cards : List FlashcardItem)
    (id prompt : JSStr) : List FlashcardItem × List GenEvent :=
  let p := fullPrompt prompt
  let cards1 := setCardLoading cards id
  match oracle p with
  | .ok url => (setCardImage cards1 id url, [.callStart p, .callEnd p])
  | .error _ => (clearCardLoading cards1 id, [.callStart p, .callEnd p])

/-- JavaScript truthiness of the `imageUrl` field: `null` and the empty
string are falsy. -/
def hasTruthyImage (card : FlashcardItem) : Bool :=
  match card.imageUrl with
  | none => false
  | some u => !u.isEmpty

/-- The eligibility test of the bulk loop:
`!card.imageUrl && !card.isLoading`. -/
def needsImage (card : FlashcardItem) : Bool :=
  !hasTruthyImage card && !card.isLoading

/-- The loop of `handleGenerateAll`: iterate the snapshot of the
collection taken when the handler was invoked, eligibility judged from
the snapshot, and await each per-card generation before starting the
next, threading the evolving store. -/
def generateAllLoop (oracle : GenOracle) :
    List FlashcardItem → List FlashcardItem → List FlashcardItem × List GenEvent
  | [], store => (store, [])
  | card :: rest, store =>
    if needsImage card then
      let r := handleGenerateImage oracle store card.id card.text
      let rr := generateAllLoop oracle rest r.1
      (rr.1, r.2 ++ rr.2)
    else generateAllLoop oracle rest store

/-- `handleGenerateAll` on a collection: the snapshot and the store start
out as the same collection. -/
def handleGenerateAll (oracle : GenOracle) (cards : List FlashcardItem) :
    List FlashcardItem × List GenEvent :=
  generateAllLoop oracle cards cards

/-- The prompts of the issued collaborator calls, in order. -/
def startPrompts (tr : List GenEvent) : List JSStr :=
  tr.filterMap (fun e => match e with | .callStart p => some p | .callEnd _ => none)

/-- Whether an event is the start of a collaborator call. -/
def isCallStart : GenEvent → Bool
  | .callStart _ => true
  | .callEnd _ => false

/-- Whether an event is the resolution of a collaborator call. -/
def isCallEnd : GenEvent → Bool
  | .callStart _ => false
  | .callEnd _ => true

/-- A concrete card without an image, used to instantiate theorems. -/
def cardA : FlashcardItem :=
  { id := strOf "a", text := strOf "cat", audioUrl := strOf "urlA",
    imageUrl := none, isLoading := false }

/-- A concrete card that already has an image. -/
def cardB : FlashcardItem :=
  { id := strOf "b", text := strOf "dog", audioUrl := strOf "urlB",
    imageUrl := some (strOf "imgB"), isLoading := false }

/-- A concrete card that has an image and a set loading flag. -/
def cardLoaded : FlashcardItem :=
  { id := strOf "c", text := strOf "sun", audioUrl := strOf "urlC",
    imageUrl := some (strOf "imgC"), isLoading := true }

/-! Basic facts about the comparator. -/

/-- The comparator output is the map over the display words that records
membership of the normalised word in the normalised spoken token list. -/
theorem comparePronunciation_eq_map (o s : JSStr) :
    comparePronunciation o s =
      (splitWs o).map (fun w =>
        { word := w, isCorrect := decide (jsNormalize w ∈ splitWs (jsNormalize s)) }) := by
  unfold comparePronunciation
  generalize splitWs o = l
  induction l with
  | nil => rfl
  | cons w l ih => simp [ih]

/-- Every token produced by `splitWs` is non-empty. -/
theorem nil_not_mem_splitWs (s : JSStr) : [] ∉ splitWs s := by
  intro h
  have h2 := (List.mem_filter.1 h).2
  simp at h2

/-- ASCII lowercasing does not change whether a character is whitespace. -/
theorem isWsChar_jsToLower (c : Nat) : isWsChar (jsToLower c) = isWsChar c := by
  unfold jsToLower
  split
  · rename_i h
    have h1 : isWsChar (c + 32) = false := by
      unfold isWsChar
      simp only [Bool.or_eq_false_iff, Bool.and_eq_false_iff, beq_eq_false_iff_ne, ne_eq,
        decide_eq_false_iff_not, not_le]
      omega
    have h2 : isWsChar c = false := by
      unfold isWsChar
      simp only [Bool.or_eq_false_iff, Bool.and_eq_false_iff, beq_eq_false_iff_ne, ne_eq,
        decide_eq_false_iff_not, not_le]
      omega
    rw [h1, h2]
  · rfl

/-- Whitespace characters survive the `replace` deletion of
`comparePronunciation`. -/
theorem not_stripMatch_of_ws (c : Nat) (h : isWsChar c = true) : (!stripMatch c) = true := by
  unfold stripMatch aposChar
  have h39 : (c == 39) = false := by
    unfold isWsChar at h
    simp only [Bool.or_eq_true, beq_iff_eq, Bool.and_eq_true, decide_eq_true_eq] at h
    simp only [beq_eq_false_iff_ne, ne_eq]
    omega
  simp [h, h39]

/-- Splitting commutes with `toLowerCase`, because lowercasing preserves
whitespace exactly. -/
theorem splitOnP_map_jsToLower (s : JSStr) :
    (s.map jsToLower).splitOnP isWsChar = (s.splitOnP isWsChar).map (List.map jsToLower) := by
  induction s with
  | nil => simp [List.splitOnP_nil]
  | cons c cs ih =>
    simp only [List.map_cons, List.splitOnP_cons, isWsChar_jsToLower, ih]
    by_cases h : isWsChar c
    · simp [h]
    · simp only [h, if_false, Bool.false_eq_true]
      cases cs.splitOnP isWsChar with
      | nil => simp
      | cons b t => simp

/-- Splitting commutes with a character filter that keeps every whitespace
character: the separators are untouched, so the block structure is
preserved and each block is filtered. -/
theorem splitOnP_filter_keep (q : Nat → Bool) (hq : ∀ c, isWsChar c = true → q c = true)
    (s : JSStr) :
    (s.filter q).splitOnP isWsChar = (s.splitOnP isWsChar).map (List.filter q) := by
  induction s with
  | nil => simp [List.splitOnP_nil]
  | cons c cs ih =>
    by_cases hw : isWsChar c
    · simp [List.filter_cons, hq c hw, List.splitOnP_cons, hw, ih]
    · by_cases hqc : q c
      · simp only [List.filter_cons, hqc, if_true, List.splitOnP_cons, hw, ih,
          Bool.false_eq_true, if_false]
        cases cs.splitOnP isWsChar with
        | nil => simp
        | cons b t => simp [List.filter_cons, hqc]
      · simp only [List.filter_cons, hqc, Bool.false_eq_true, if_false, List.splitOnP_cons,
          hw, ih]
        cases cs.splitOnP isWsChar with
        | nil => simp
        | cons b t => simp [List.filter_cons, hqc]

/-- Splitting after normalisation is normalisation of each block. -/
theorem splitOnP_jsNormalize (s : JSStr) :
    (jsNormalize s).splitOnP isWsChar = (s.splitOnP isWsChar).map jsNormalize := by
  unfold jsNormalize
  rw [splitOnP_filter_keep _ not_stripMatch_of_ws, splitOnP_map_jsToLower, List.map_map]
  rfl

/-- The spoken token list is obtained by normalising each whitespace token
of the transcript and discarding the tokens that normalise to nothing. -/
theorem splitWs_jsNormalize (s : JSStr) :
    splitWs (jsNormalize s) = ((splitWs s).map jsNormalize).filter (fun w => !w.isEmpty) := by
  unfold splitWs
  rw [splitOnP_jsNormalize, List.filter_map, List.filter_map, List.filter_filter]
  congr 1
  apply List.filter_congr
  intro b _
  cases b with
  | nil => rfl
  | cons c cs => simp

/-! Claim theorems for the pronunciation comparator. -/

/-- C1: for every reference sentence and transcript, the comparator output
has one entry per whitespace-separated non-empty word of the original
text, and the `word` field of the i-th entry is the i-th original word
verbatim, in original order. -/
theorem comparator_output_aligned_with_original (o s : JSStr) :
    (comparePronunciation o s).length = (splitWs o).length ∧
    (comparePronunciation o s).map ComparisonResult.word = splitWs o := by
  rw [comparePronunciation_eq_map]
  constructor
  · simp
  · simp [Function.comp_def]

/-- C2: the comparator marks an original word correct exactly when its
normalised form occurs among the normalised whitespace tokens of the
transcript; in particular "Hello, World!" against "hello world" marks
both words correct. -/
theorem comparator_correct_iff_token_match (o s : JSStr) :
    (∀ r ∈ comparePronunciation o s,
        r.isCorrect = true ↔ jsNormalize r.word ∈ splitWs (jsNormalize s)) ∧
    comparePronunciation (strOf "Hello, World!") (strOf "hello world") =
      [{ word := strOf "Hello,", isCorrect := true },
       { word := strOf "World!", isCorrect := true }] := by
  refine ⟨?_, by decide⟩
  intro r hr
  rw [comparePronunciation_eq_map] at hr
  obtain ⟨w, _, rfl⟩ := List.mem_map.1 hr
  simp

/-- Witness for C2 at the concrete pair of the claim. -/
theorem comparator_correct_iff_token_match_witness :
    ({ word := strOf "Hello,", isCorrect := true } : ComparisonResult) ∈
        comparePronunciation (strOf "Hello, World!") (strOf "hello world") ∧
    (({ word := strOf "Hello,", isCorrect := true } : ComparisonResult).isCorrect = true ↔
        jsNormalize (strOf "Hello,") ∈ splitWs (jsNormalize (strOf "hello world"))) :=
  ⟨by decide,
    (comparator_correct_iff_token_match (strOf "Hello, World!") (strOf "hello world")).1
      _ (by decide)⟩

/-- C3: permuting the whitespace words of the transcript leaves the
comparator output unchanged, flags included. -/
theorem comparator_transcript_order_insensitive (o t tp : JSStr)
    (h : (splitWs tp).Perm (splitWs t)) :
    comparePronunciation o tp = comparePronunciation o t := by
  have hperm : (splitWs (jsNormalize tp)).Perm (splitWs (jsNormalize t)) := by
    rw [splitWs_jsNormalize, splitWs_jsNormalize]
    exact (h.map jsNormalize).filter _
  rw [comparePronunciation_eq_map, comparePronunciation_eq_map]
  congr 1
  funext w
  congr 1
  exact decide_eq_decide.mpr (hperm.mem_iff)

/-- Witness for C3: the reference "red ball" compared against the
transcripts "ball red" and "red ball". -/
theorem comparator_transcript_order_insensitive_witness :
    (splitWs (strOf "ball red")).Perm (splitWs (strOf "red ball")) ∧
    comparePronunciation (strOf "red ball") (strOf "ball red") =
      comparePronunciation (strOf "red ball") (strOf "red ball") :=
  ⟨by decide, comparator_transcript_order_insensitive _ _ _ (by decide)⟩

/-- C4: an empty original text yields the empty result, and a non-empty
original text compared against an empty transcript marks every word
incorrect. -/
theorem comparator_empty_text_edge_cases (o s : JSStr) :
    comparePronunciation [] s = [] ∧
    (comparePronunciation o []).all (fun r => !r.isCorrect) = true := by
  constructor
  · rfl
  · rw [comparePronunciation_eq_map]
    have h0 : splitWs (jsNormalize []) = [] := rfl
    simp [List.all_eq_true, h0]

/-- C10: an original word whose normalised form is empty is always marked
incorrect, because the spoken token list never contains the empty
string. -/
theorem comparator_empty_normalized_always_incorrect (o s : JSStr) :
    ∀ r ∈ comparePronunciation o s, jsNormalize r.word = [] → r.isCorrect = false := by
  intro r hr hnil
  rw [comparePronunciation_eq_map] at hr
  obtain ⟨w, _, rfl⟩ := List.mem_map.1 hr
  simp only at hnil ⊢
  rw [hnil]
  exact decide_eq_false (nil_not_mem_splitWs _)

/-- Witness for C10: the reference "!!!" compared against itself. -/
theorem comparator_empty_normalized_always_incorrect_witness :
    ({ word := strOf "!!!", isCorrect := false } : ComparisonResult) ∈
        comparePronunciation (strOf "!!!") (strOf "!!!") ∧
    jsNormalize (strOf "!!!") = [] ∧
    ({ word := strOf "!!!", isCorrect := false } : ComparisonResult).isCorrect = false :=
  ⟨by decide, by decide,
    comparator_empty_normalized_always_incorrect (strOf "!!!") (strOf "!!!")
      _ (by decide) (by decide)⟩

/-! Facts about the import validation. -/

/-- The per-element scan returns a clean verdict exactly on objects that
carry both required keys. -/
theorem itemMissingRequired_ok_false_iff (item : JSValue) :
    itemMissingRequired item = .ok false ↔ itemHasRequired item = true := by
  cases item with
  | obj fields =>
    by_cases h1 : hasField fields (strOf "id") <;>
      by_cases h2 : hasField fields (strOf "text") <;>
        simp [itemMissingRequired, undefinedCheck, itemHasRequired, h1, h2]
  | null => simp [itemMissingRequired, undefinedCheck, itemHasRequired]
  | bool b => simp [itemMissingRequired, undefinedCheck, itemHasRequired]
  | num n => simp [itemMissingRequired, undefinedCheck, itemHasRequired]
  | str s => simp [itemMissingRequired, undefinedCheck, itemHasRequired]
  | arr xs => simp [itemMissingRequired, undefinedCheck, itemHasRequired]

/-- The array scan completes cleanly exactly when every element is an
object carrying both required keys. -/
theorem anyMissingRequired_ok_false_iff (items : List JSValue) :
    anyMissingRequired items = .ok false ↔
      ∀ item ∈ items, itemHasRequired item = true := by
  induction items with
  | nil => simp [anyMissingRequired]
  | cons item rest ih =>
    have hiff := itemMissingRequired_ok_false_iff item
    cases hm : itemMissingRequired item with
    | error e =>
      have hfail : itemHasRequired item = false := by
        cases hval : itemHasRequired item
        · rfl
        · exact absurd (hiff.mpr hval) (by simp [hm])
      simp [anyMissingRequired, hm, hfail]
    | ok b =>
      cases b with
      | true =>
        have hfail : itemHasRequired item = false := by
          cases hval : itemHasRequired item
          · rfl
          · exact absurd (hiff.mpr hval) (by simp [hm])
        simp [anyMissingRequired, hm, hfail]
      | false =>
        simp [anyMissingRequired, hm, hiff.mp hm, ih]

/-- C5: an import whose input fails to parse, is not an array, or is an
array on which the required-field scan throws or finds an offending
element leaves the prior collection unchanged and surfaces an error; any
other input replaces the whole collection with the parsed array as-is. -/
theorem import_replaces_or_preserves (prior : List JSValue) (doc : Except Unit JSValue) :
    (∀ items, doc = .ok (.arr items) →
        (∀ item ∈ items, itemHasRequired item = true) →
        importDeck prior doc = { collection := items, errored := false }) ∧
    ((¬ ∃ items, doc = .ok (.arr items) ∧ ∀ item ∈ items, itemHasRequired item = true) →
        importDeck prior doc = { collection := prior, errored := true }) := by
  constructor
  · rintro items rfl hall
    simp [importDeck, (anyMissingRequired_ok_false_iff items).mpr hall]
  · intro hno
    cases doc with
    | error e => rfl
    | ok v =>
      cases v with
      | null => rfl
      | bool b => rfl
      | num n => rfl
      | str s => rfl
      | obj fields => rfl
      | arr items =>
        cases h : anyMissingRequired items with
        | error e => simp [importDeck, h]
        | ok b =>
          cases b with
          | true => simp [importDeck, h]
          | false =>
            exact absurd ⟨items, rfl, (anyMissingRequired_ok_false_iff items).mp h⟩ hno

/-- Witness for C5: a well-formed one-element import replaces the
collection, and an element missing `text` preserves it. -/
theorem import_replaces_or_preserves_witness :
    importDeck []
        (.ok (.arr [.obj [(strOf "id", .str (strOf "a")),
                          (strOf "text", .str (strOf "cat"))]])) =
      { collection := [.obj [(strOf "id", .str (strOf "a")),
                             (strOf "text", .str (strOf "cat"))]],
        errored := false } ∧
    importDeck [.null] (.ok (.arr [.obj [(strOf "id", .str (strOf "a"))]])) =
      { collection := [.null], errored := true } :=
  ⟨(import_replaces_or_preserves [] _).1 _ rfl (by decide),
   (import_replaces_or_preserves [.null] _).2 (by
      rintro ⟨items, heq, hall⟩
      cases heq
      exact absurd (hall _ (List.mem_cons_self _ _)) (by decide))⟩

/-- C6 counterexample: an element whose `id` and `text` are numbers, not
strings, is accepted and replaces the collection; no string type check is
performed. -/
theorem import_accepts_nonstring_fields :
    importDeck [] (.ok (.arr [.obj [(strOf "id", .num 5), (strOf "text", .num 6)]])) =
      { collection := [.obj [(strOf "id", .num 5), (strOf "text", .num 6)]],
        errored := false } := rfl

/-- C6 amended: an imported document is accepted exactly when it is a JSON
array in which every element is an object carrying `id` and `text` keys;
the values of those keys may have any type. -/
theorem import_accepted_iff_required_present (prior : List JSValue)
    (doc : Except Unit JSValue) :
    (importDeck prior doc).errored = false ↔
      ∃ items, doc = .ok (.arr items) ∧ ∀ item ∈ items, itemHasRequired item = true := by
  cases doc with
  | error e => simp [importDeck]
  | ok v =>
    cases v with
    | null => simp [importDeck]
    | bool b => simp [importDeck]
    | num n => simp [importDeck]
    | str s => simp [importDeck]
    | obj fields => simp [importDeck]
    | arr items =>
      cases h : anyMissingRequired items with
      | error e =>
        simp only [importDeck, h]
        constructor
        · intro hfalse
          exact absurd hfalse (by simp)
        · rintro ⟨items2, heq, hall⟩
          cases heq
          have := (anyMissingRequired_ok_false_iff items).mpr hall
          rw [h] at this
          exact absurd this (by simp)
      | ok b =>
        cases b with
        | false =>
          simp only [importDeck, h]
          constructor
          · intro _
            exact ⟨items, rfl, (anyMissingRequired_ok_false_iff items).mp h⟩
          · intro _
            trivial
        | true =>
          simp only [importDeck, h]
          constructor
          · intro hfalse
            exact absurd hfalse (by simp)
          · rintro ⟨items2, heq, hall⟩
            cases heq
            have := (anyMissingRequired_ok_false_iff items).mpr hall
            rw [h] at this
            exact absurd this (by simp)

/-! Export / import round-trip. -/

/-- Every serialised flashcard passes the import validation. -/
theorem itemHasRequired_flashcardToJS (card : FlashcardItem) :
    itemHasRequired (flashcardToJS card) = true := rfl

/-- Reading a serialised flashcard back recovers the card. -/
theorem flashcardOfJS_flashcardToJS (card : FlashcardItem) :
    flashcardOfJS (flashcardToJS card) = some card := by
  cases card with
  | mk i t a img l => cases img <;> rfl

/-- C7: exporting a non-empty collection produces a document that import
accepts, the resulting collection is the exported array, and each of its
elements reads back as the original card, in order. -/
theorem export_then_import_roundtrip (cards : List FlashcardItem) (prior : List JSValue)
    (h : cards ≠ []) :
    ∃ doc, exportDeck cards = some doc ∧
      importDeck prior (.ok doc) =
        { collection := cards.map flashcardToJS, errored := false } ∧
      (cards.map flashcardToJS).map flashcardOfJS = cards.map some := by
  refine ⟨.arr (cards.map flashcardToJS), ?_, ?_, ?_⟩
  · cases cards with
    | nil => exact absurd rfl h
    | cons c cs => rfl
  · have hall : ∀ item ∈ cards.map flashcardToJS, itemHasRequired item = true := by
      intro item hitem
      obtain ⟨c, _, rfl⟩ := List.mem_map.1 hitem
      exact itemHasRequired_flashcardToJS c
    simp [importDeck, (anyMissingRequired_ok_false_iff _).mpr hall]
  · simp [List.map_map, Function.comp_def, flashcardOfJS_flashcardToJS]

/-- Witness for C7 on a one-card collection. -/
theorem export_then_import_roundtrip_witness :
    ([cardA] : List FlashcardItem) ≠ [] ∧
    (∃ doc, exportDeck [cardA] = some doc ∧
      importDeck [] (.ok doc) =
        { collection := [cardA].map flashcardToJS, errored := false } ∧
      ([cardA].map flashcardToJS).map flashcardOfJS = [cardA].map some) :=
  ⟨by decide, export_then_import_roundtrip [cardA] [] (by decide)⟩

/-! Store mutation frame property. -/

/-- C9: each of the three store mutations preserves the length of the
collection, leaves every card whose id differs from the target unchanged
by value, and changes a card carrying the targeted id only in the
specified fields. -/
theorem store_mutation_frame (cards : List FlashcardItem) (id url : JSStr) :
    ((setCardLoading cards id).length = cards.length ∧
     (setCardImage cards id url).length = cards.length ∧
     (clearCardLoading cards id).length = cards.length) ∧
    (∀ (i : Nat) (card : FlashcardItem), cards[i]? = some card → card.id ≠ id →
      (setCardLoading cards id)[i]? = some card ∧
      (setCardImage cards id url)[i]? = some card ∧
      (clearCardLoading cards id)[i]? = some card) ∧
    (∀ (i : Nat) (card : FlashcardItem), cards[i]? = some card → card.id = id →
      (setCardLoading cards id)[i]? = some { card with isLoading := true } ∧
      (setCardImage cards id url)[i]? =
        some { card with imageUrl := some url, isLoading := false } ∧
      (clearCardLoading cards id)[i]? = some { card with isLoading := false }) := by
  refine ⟨⟨?_, ?_, ?_⟩, ?_, ?_⟩
  · simp [setCardLoading]
  · simp [setCardImage]
  · simp [clearCardLoading]
  · intro i card hi hne
    have hbeq : (card.id == id) = false := beq_eq_false_iff_ne.mpr hne
    simp [setCardLoading, setCardImage, clearCardLoading, hi, hbeq, hne]
  · intro i card hi heq
    have hbeq : (card.id == id) = true := beq_iff_eq.mpr heq
    simp [setCardLoading, setCardImage, clearCardLoading, hi, hbeq, heq]

/-- Witness for C9 on a two-card store: mutating the first card leaves
the second unchanged and updates only the first. -/
theorem store_mutation_frame_witness :
    ([cardA, cardB] : List FlashcardItem)[1]? = some cardB ∧
    cardB.id ≠ strOf "a" ∧
    (setCardLoading [cardA, cardB] (strOf "a"))[1]? = some cardB ∧
    ([cardA, cardB] : List FlashcardItem)[0]? = some cardA ∧
    cardA.id = strOf "a" ∧
    (setCardImage [cardA, cardB] (strOf "a") (strOf "img"))[0]? =
      some { cardA with imageUrl := some (strOf "img"), isLoading := false } :=
  ⟨rfl, by decide,
   ((store_mutation_frame [cardA, cardB] (strOf "a") (strOf "img")).2.1
      1 cardB rfl (by decide)).1,
   rfl, by decide,
   ((store_mutation_frame [cardA, cardB] (strOf "a") (strOf "img")).2.2
      0 cardA rfl (by decide)).2.1⟩

/-! Image generation orchestration. -/

/-- One per-card generation emits exactly one call interval, whatever the
collaborator answers. -/
theorem handleGenerateImage_trace (oracle : GenOracle) (cards : List FlashcardItem)
    (id prompt : JSStr) :
    (handleGenerateImage oracle cards id prompt).2 =
      [.callStart (fullPrompt prompt), .callEnd (fullPrompt prompt)] := by
  unfold handleGenerateImage
  cases h : oracle (fullPrompt prompt) <;> simp [h]

/-- One per-card generation leaves no loading flag set when none was set
before: the card it targets ends with the flag cleared on both the
success and the failure path, and other cards keep their flag. -/
theorem handleGenerateImage_no_loading (oracle : GenOracle) (cards : List FlashcardItem)
    (id prompt : JSStr) (h : ∀ c ∈ cards, c.isLoading = false) :
    ∀ c ∈ (handleGenerateImage oracle cards id prompt).1, c.isLoading = false := by
  intro c hc
  cases ho : oracle (fullPrompt prompt) with
  | ok url =>
    simp only [handleGenerateImage, ho] at hc
    simp only [setCardImage, setCardLoading, List.map_map, List.mem_map,
      Function.comp_def] at hc
    obtain ⟨c0, hc0, rfl⟩ := hc
    by_cases hb : (c0.id == id) = true
    · simp [hb]
    · simp only [Bool.not_eq_true] at hb
      simp [hb, h c0 hc0]
  | error e =>
    simp only [handleGenerateImage, ho] at hc
    simp only [clearCardLoading, setCardLoading, List.map_map, List.mem_map,
      Function.comp_def] at hc
    obtain ⟨c0, hc0, rfl⟩ := hc
    by_cases hb : (c0.id == id) = true
    · simp [hb]
    · simp only [Bool.not_eq_true] at hb
      simp [hb, h c0 hc0]

/-- The bulk loop issues exactly one call per eligible snapshot card, in
snapshot order, whatever the store holds. -/
theorem generateAllLoop_starts (oracle : GenOracle) (snapshot : List FlashcardItem) :
    ∀ store, startPrompts (generateAllLoop oracle snapshot store).2 =
      (snapshot.filter needsImage).map (fun c => fullPrompt c.text) := by
  induction snapshot with
  | nil => intro store; rfl
  | cons card rest ih =>
    intro store
    by_cases h : needsImage card
    · simp [generateAllLoop, h, startPrompts, handleGenerateImage_trace,
        List.filter_cons, ih, List.filterMap_append]
      rw [← startPrompts, ih]
    · simp [generateAllLoop, h, List.filter_cons, ih]

/-- Prefix balance is preserved by prepending one complete call
interval. -/
theorem balanced_cons_block (p q : JSStr) (tr : List GenEvent)
    (htr : ∀ pre suf, tr = pre ++ suf →
      pre.countP isCallStart ≤ pre.countP isCallEnd + 1) :
    ∀ pre suf, GenEvent.callStart p :: GenEvent.callEnd q :: tr = pre ++ suf →
      pre.countP isCallStart ≤ pre.countP isCallEnd + 1 := by
  intro pre suf h
  match pre with
  | [] => simp
  | [e] =>
    have h1 : List.countP isCallStart [e] ≤ [e].length := List.countP_le_length isCallStart
    simp only [List.length_cons, List.length_nil] at h1
    omega
  | e1 :: e2 :: pre2 =>
    rw [List.cons_append, List.cons_append] at h
    injection h with h1 h
    injection h with h2 h
    subst h1; subst h2
    have := htr pre2 suf h
    simp only [List.countP_cons, isCallStart, isCallEnd]
    simp only [if_true, if_false]
    omega

/-- In the trace of the bulk loop, every prefix has at most one more call
start than call resolutions: calls never overlap. -/
theorem generateAllLoop_balanced (oracle : GenOracle) (snapshot : List FlashcardItem) :
    ∀ store pre suf, (generateAllLoop oracle snapshot store).2 = pre ++ suf →
      pre.countP isCallStart ≤ pre.countP isCallEnd + 1 := by
  induction snapshot with
  | nil =>
    intro store pre suf h
    have hpre : pre = [] := (List.append_eq_nil.mp h.symm).1
    subst hpre
    simp
  | cons card rest ih =>
    intro store pre suf h
    by_cases hn : needsImage card
    · simp only [generateAllLoop, hn, if_true] at h
      rw [handleGenerateImage_trace] at h
      exact balanced_cons_block _ _ _
        (ih (handleGenerateImage oracle store card.id card.text).1) pre suf h
    · simp only [generateAllLoop, hn, Bool.false_eq_true, if_false] at h
      exact ih store pre suf h

/-- The bulk loop leaves no loading flag set when none was set at the
start, also when collaborator calls fail. -/
theorem generateAllLoop_no_loading (oracle : GenOracle) (snapshot : List FlashcardItem) :
    ∀ store, (∀ c ∈ store, c.isLoading = false) →
      ∀ c ∈ (generateAllLoop oracle snapshot store).1, c.isLoading = false := by
  induction snapshot with
  | nil => intro store h c hc; exact h c hc
  | cons card rest ih =>
    intro store h
    by_cases hn : needsImage card
    · simp only [generateAllLoop, hn, if_true]
      exact ih _ (handleGenerateImage_no_loading oracle store card.id card.text h)
    · simp only [generateAllLoop, hn, Bool.false_eq_true, if_false]
      exact ih store h

/-- C8 counterexample: on a collection whose only card has an image and a
set loading flag, bulk generation completes without touching it, so a
card is still loading afterwards. -/
theorem bulk_generation_can_leave_loading_flag :
    (handleGenerateAll (fun _ => .error []) [cardLoaded]).1 = [cardLoaded] ∧
    cardLoaded.isLoading = true := ⟨rfl, rfl⟩

/-- C8 amended: bulk generation calls the collaborator exactly once per
snapshot card without a truthy image and not loading, in collection
order; every trace prefix has at most one unresolved call; and when no
card is loading at the start, no card is loading after completion, also
when calls fail. -/
theorem bulk_generation_sequential_exactly_once (oracle : GenOracle)
    (cards : List FlashcardItem) :
    startPrompts (handleGenerateAll oracle cards).2 =
      (cards.filter needsImage).map (fun c => fullPrompt c.text) ∧
    (∀ pre suf, (handleGenerateAll oracle cards).2 = pre ++ suf →
      pre.countP isCallStart ≤ pre.countP isCallEnd + 1) ∧
    ((∀ c ∈ cards, c.isLoading = false) →
      ∀ c ∈ (handleGenerateAll oracle cards).1, c.isLoading = false) :=
  ⟨generateAllLoop_starts oracle cards cards,
   fun pre suf h => generateAllLoop_balanced oracle cards cards pre suf h,
   fun h => generateAllLoop_no_loading oracle cards cards h⟩

/-- Witness for C8 on a two-card collection with a succeeding
collaborator: one call for the card lacking an image, balanced prefix,
and no loading flags afterwards. -/
theorem bulk_generation_sequential_exactly_once_witness :
    (handleGenerateAll (fun _ => .ok (strOf "img")) [cardA, cardB]).2 =
      [GenEvent.callStart (fullPrompt (strOf "cat"))] ++
      [GenEvent.callEnd (fullPrompt (strOf "cat"))] ∧
    ([GenEvent.callStart (fullPrompt (strOf "cat"))].countP isCallStart ≤
      [GenEvent.callStart (fullPrompt (strOf "cat"))].countP isCallEnd + 1) ∧
    (∀ c ∈ ([cardA, cardB] : List FlashcardItem), c.isLoading = false) ∧
    (∀ c ∈ (handleGenerateAll (fun _ => .ok (strOf "img")) [cardA, cardB]).1,
      c.isLoading = false) :=
  ⟨rfl,
   (bulk_generation_sequential_exactly_once (fun _ => .ok (strOf "img"))
      [cardA, cardB]).2.1 _ _ rfl,
   by decide,
   (bulk_generation_sequential_exactly_once (fun _ => .ok (strOf "img"))
      [cardA, cardB]).2.2 (by decide)⟩

end AudioFlashcards
